import Mathlib

/-!
# Verification of the `frontend-matcher` reverse proxy

Shallow embedding of `api/proxy.js` (the current stable revision) and the
earlier diagnostic revision of the same handler, together with theorems
settling the specification claims about request classification, the auth
gate, CORS, body relay and path resolution.

Conventions of the embedding:
* JavaScript strings are Lean `String`s; byte payloads are `List Nat`.
* Node.js lower-cases inbound header names, so `Request.headers` carries
  lower-case keys; header maps are association lists where assignment
  replaces the first binding of a key (matching JS object property update).
* JS truthiness on strings (`""` and absent are falsy) is made explicit.
* The buffering step `Buffer.concat(chunks).toString("utf8")` followed by
  `fetch` re-encoding the string is modelled as the byte-level transcode
  `jsUtf8Transcode` (lossy WHATWG UTF-8 decode, then encode), which is
  the identity exactly on valid UTF-8 payloads.
-/

namespace FrontendMatcher

/-- JS truthiness of an optional string: `undefined` and `""` are falsy. -/
def jsTruthyStr : Option String → Bool
  | none => false
  | some s => s != ""

/-- ASCII lower-casing of a string, as `String.prototype.toLowerCase`
acts on header names (which are ASCII). -/
def lowerStr (s : String) : String :=
  String.mk (s.data.map Char.toLower)

/-- JavaScript `s.startsWith(pre)`: character-wise prefix test. -/
def jsStartsWith (s pre : String) : Bool :=
  pre.data.isPrefixOf s.data

/-- Does `pat` occur as a contiguous run inside `l`? -/
def listInfix (pat : List Char) : List Char → Bool
  | [] => pat.isEmpty
  | c :: rest => pat.isPrefixOf (c :: rest) || listInfix pat rest

/-- JavaScript `s.includes(pat)`: character-wise infix test. -/
def jsIncludes (s pat : String) : Bool :=
  listInfix pat.data s.data

/-- Header / JS-object maps: association lists, first binding wins on read. -/
abbrev Headers := List (String × String)

/-- Read a key (`obj[k]`): the first binding, if any. -/
def getH (hs : Headers) (k : String) : Option String :=
  (hs.find? (fun p => p.1 == k)).map (·.2)

/-- Assign a key (`obj[k] = v`): replace the first binding in place,
else append — JS object property-update semantics. -/
def setH : Headers → String → String → Headers
  | [], k, v => [(k, v)]
  | p :: rest, k, v =>
    if p.1 == k then (k, v) :: rest else p :: setH rest k v

/-- Value of one hexadecimal digit, if the character is one. -/
def hexVal (c : Char) : Option Nat :=
  if '0' ≤ c ∧ c ≤ '9' then some (c.toNat - '0'.toNat)
  else if 'a' ≤ c ∧ c ≤ 'f' then some (c.toNat - 'a'.toNat + 10)
  else if 'A' ≤ c ∧ c ≤ 'F' then some (c.toNat - 'A'.toNat + 10)
  else none

/-- UTF-8 encoding of a single code point (given as a `Char`). -/
def utf8EncodeCp (c : Char) : List Nat :=
  let n := c.toNat
  if n < 0x80 then [n]
  else if n < 0x800 then [0xC0 + n / 64, 0x80 + n % 64]
  else if n < 0x10000 then
    [0xE0 + n / 4096, 0x80 + (n / 64) % 64, 0x80 + n % 64]
  else
    [0xF0 + n / 262144, 0x80 + (n / 4096) % 64, 0x80 + (n / 64) % 64,
     0x80 + n % 64]

/-- Percent-decode a character list to bytes: `%XY` with two hex digits
becomes one byte, any other character contributes its UTF-8 bytes; a `%`
not followed by two hex digits is malformed (`none`). -/
def pctBytes : List Char → Option (List Nat)
  | [] => some []
  | '%' :: c₁ :: c₂ :: rest =>
    match hexVal c₁, hexVal c₂ with
    | some h₁, some h₂ => (pctBytes rest).map (fun bs => (h₁ * 16 + h₂) :: bs)
    | _, _ => none
  | '%' :: _ => none
  | c :: rest => (pctBytes rest).map (fun bs => utf8EncodeCp c ++ bs)

/-- Is a byte a UTF-8 continuation byte (`10xxxxxx`)? -/
def isCont (b : Nat) : Bool := 0x80 ≤ b ∧ b < 0xC0

/-- Strict UTF-8 decoding of a byte list; rejects truncated sequences,
overlong encodings, surrogates and out-of-range code points — the cases on
which `decodeURIComponent` raises `URIError`. -/
def utf8Decode : List Nat → Option (List Char)
  | [] => some []
  | b :: rest =>
    if b < 0x80 then
      (utf8Decode rest).map (fun cs => Char.ofNat b :: cs)
    else if b < 0xC0 then none
    else if b < 0xE0 then
      match rest with
      | b₁ :: rest' =>
        if isCont b₁ then
          let cp := (b - 0xC0) * 64 + (b₁ - 0x80)
          if cp < 0x80 then none
          else (utf8Decode rest').map (fun cs => Char.ofNat cp :: cs)
        else none
      | _ => none
    else if b < 0xF0 then
      match rest with
      | b₁ :: b₂ :: rest' =>
        if isCont b₁ ∧ isCont b₂ then
          let cp := (b - 0xE0) * 4096 + (b₁ - 0x80) * 64 + (b₂ - 0x80)
          if cp < 0x800 ∨ (0xD800 ≤ cp ∧ cp ≤ 0xDFFF) then none
          else (utf8Decode rest').map (fun cs => Char.ofNat cp :: cs)
        else none
      | _ => none
    else if b < 0xF5 then
      match rest with
      | b₁ :: b₂ :: b₃ :: rest' =>
        if isCont b₁ ∧ isCont b₂ ∧ isCont b₃ then
          let cp := (b - 0xF0) * 262144 + (b₁ - 0x80) * 4096 +
                    (b₂ - 0x80) * 64 + (b₃ - 0x80)
          if cp < 0x10000 ∨ cp > 0x10FFFF then none
          else (utf8Decode rest').map (fun cs => Char.ofNat cp :: cs)
        else none
      | _ => none
    else none

/-- Totalised `decodeURIComponent`: `none` where JS throws `URIError`
(malformed percent escape or invalid UTF-8). -/
def decodeURIComponent (s : String) : Option String :=
  (pctBytes s.data).bind (fun bs => (utf8Decode bs).map String.mk)

/-- The replacement character U+FFFD emitted by lossy decoding. -/
def repl : Char := Char.ofNat 0xFFFD

/-- Fuel-bounded worker for lossy UTF-8 decoding as
`Buffer.toString("utf8")` performs it (WHATWG / V8 behaviour): each
maximal invalid subpart becomes one U+FFFD; a byte that breaks a
sequence is reprocessed as a fresh lead; second-byte ranges are
constrained per lead byte so overlong encodings, surrogates and
out-of-range code points are never assembled. Every step consumes at
least one byte and one unit of fuel, so fuel = input length suffices. -/
def utf8DecodeLossyGo : Nat → List Nat → List Char
  | 0, _ => []
  | _ + 1, [] => []
  | fuel + 1, b :: rest =>
    if b < 0x80 then Char.ofNat b :: utf8DecodeLossyGo fuel rest
    else if b < 0xC2 then repl :: utf8DecodeLossyGo fuel rest
    else if b < 0xE0 then
      match rest with
      | b₁ :: rest' =>
        if isCont b₁ then
          Char.ofNat ((b - 0xC0) * 64 + (b₁ - 0x80)) ::
            utf8DecodeLossyGo fuel rest'
        else repl :: utf8DecodeLossyGo fuel rest
      | [] => [repl]
    else if b < 0xF0 then
      match rest with
      | b₁ :: rest₁ =>
        if (if b = 0xE0 then 0xA0 else 0x80) ≤ b₁ ∧
            b₁ ≤ (if b = 0xED then 0x9F else 0xBF) then
          match rest₁ with
          | b₂ :: rest₂ =>
            if isCont b₂ then
              Char.ofNat ((b - 0xE0) * 4096 + (b₁ - 0x80) * 64 + (b₂ - 0x80))
                :: utf8DecodeLossyGo fuel rest₂
            else repl :: utf8DecodeLossyGo fuel rest₁
          | [] => [repl]
        else repl :: utf8DecodeLossyGo fuel rest
      | [] => [repl]
    else if b < 0xF5 then
      match rest with
      | b₁ :: rest₁ =>
        if (if b = 0xF0 then 0x90 else 0x80) ≤ b₁ ∧
            b₁ ≤ (if b = 0xF4 then 0x8F else 0xBF) then
          match rest₁ with
          | b₂ :: rest₂ =>
            if isCont b₂ then
              match rest₂ with
              | b₃ :: rest₃ =>
                if isCont b₃ then
                  Char.ofNat ((b - 0xF0) * 262144 + (b₁ - 0x80) * 4096 +
                      (b₂ - 0x80) * 64 + (b₃ - 0x80)) ::
                    utf8DecodeLossyGo fuel rest₃
                else repl :: utf8DecodeLossyGo fuel rest₂
              | [] => [repl]
            else repl :: utf8DecodeLossyGo fuel rest₁
          | [] => [repl]
        else repl :: utf8DecodeLossyGo fuel rest
      | [] => [repl]
    else repl :: utf8DecodeLossyGo fuel rest

/-- Lossy UTF-8 decoding of a whole byte list. -/
def utf8DecodeLossy (bs : List Nat) : List Char :=
  utf8DecodeLossyGo bs.length bs

/-- The UTF-8 byte sequence `fetch` sends for a JS string body. -/
def utf8Bytes (cs : List Char) : List Nat :=
  (cs.map utf8EncodeCp).flatten

/-- Model of `Buffer.concat(chunks).toString("utf8")` followed by the
UTF-8 re-encoding `fetch` applies to a string request body: lossy
decode, then encode. On valid UTF-8 payloads this is the identity; an
invalid sequence comes out as the bytes of U+FFFD. -/
def jsUtf8Transcode (bs : List Nat) : List Nat :=
  utf8Bytes (utf8DecodeLossy bs)

/-! ## Data model -/

/-- An inbound HTTP request as the Vercel runtime presents it to the
handler. `queryPath` / `queryDebug` are the `path` / `debug` query values
after the code's array normalisation (`if (Array.isArray(p)) p = p[0]`);
absent means `undefined`. Header keys are lower-case (Node normalises
them). The body is the sequence of byte chunks the stream would yield. -/
structure Request where
  method : String
  url : String
  queryPath : Option String
  queryDebug : Option String
  headers : Headers
  bodyChunks : List (List Nat)

/-- Process environment (`process.env`) fields the handler reads. -/
structure Env where
  API_BASE : Option String
  SUPABASE_URL : Option String
  SUPABASE_SERVICE_ROLE_KEY : Option String

/-- Outcome of the external `supabaseAdmin.auth.getUser(token)` call:
a user with an id, an explicit rejection (`error` set or `data.user`
absent), or the call itself throwing (transport failure). -/
inductive GetUserResult where
  | user (id : String)
  | rejected
  | raise (msg : String)

/-- Outcome of the `fetch` of the upstream: a response
(status, headers, fully-read body bytes) or a thrown transport error. -/
inductive UpstreamOutcome where
  | ok (status : Nat) (headers : Headers) (body : List Nat)
  | fail (msg : String)

/-- Body handed to the upstream `fetch`: none, a buffered byte payload
(`init.body = raw`), or the live request stream (`init.body = req`). -/
inductive ForwardBody where
  | none
  | buffered (bytes : List Nat)
  | streamed
deriving DecidableEq

/-- The upstream HTTP call as issued: target URL, method, forwarded
headers and body policy. -/
structure UpstreamReq where
  url : String
  method : String
  headers : Headers
  body : ForwardBody

/-- JSON values appearing in locally-synthesised response bodies. -/
inductive JVal where
  | s (v : String)
  | b (v : Bool)
  | nul
deriving DecidableEq

/-- Body of the response written to the caller. -/
inductive RespBody where
  | empty
  | json (fields : List (String × JVal))
  | bytes (bs : List Nat)

/-- The response written to the caller. -/
structure Response where
  status : Nat
  headers : Headers
  body : RespBody

/-- Result of one handler run: the response plus the externally observable
effects — whether the identity verifier was invoked, whether any request
body byte was consumed (buffered by the JSON loop or handed to `fetch` as
a stream), and the upstream call if one was issued. -/
structure HandlerResult where
  response : Response
  verifierCalled : Bool
  bodyRead : Bool
  upstream : Option UpstreamReq

/-! ## `api/proxy.js` — stable revision -/

/-- Embedding of `resolveUpstreamPath` in `api/proxy.js`: prefer a non-empty `path`
query value, percent-decoded (`try { decodeURIComponent } catch {}` keeps
the raw value on a malformed escape), `/`-prefixed; otherwise strip the
`/api/proxy` (optionally `.js`, case-insensitive) mount prefix from the
raw URL, mapping an empty remainder to `/`. -/
def resolveUpstreamPath (req : Request) : String :=
  match req.queryPath with
  | some p =>
    if p.length > 0 then
      let d := (decodeURIComponent p).getD p
      if jsStartsWith d "/" then d else "/" ++ d
    else
      resolveFallback req.url
  | none => resolveFallback req.url
where
  /-- the `req.url.replace(/^\/api\/proxy(?:\.js)?/i, "")` fallback -/
  resolveFallback (url : String) : String :=
    let low := lowerStr url
    let withoutPrefix :=
      if jsStartsWith low "/api/proxy.js" then String.mk (url.data.drop 13)
      else if jsStartsWith low "/api/proxy" then String.mk (url.data.drop 10)
      else url
    if withoutPrefix == "" || withoutPrefix == "/" then "/"
    else if jsStartsWith withoutPrefix "/" then withoutPrefix
    else "/" ++ withoutPrefix

/-- Numeric value of a digit string. -/
def digitsVal (cs : List Char) : Nat :=
  cs.foldl (fun n c => n * 10 + (c.toNat - '0'.toNat)) 0

/-- JavaScript `Number(s) > 0` for the strings appearing as `content-length` values:
whitespace-trims, the empty string is `0`, a digit string is its value,
and anything else is `NaN` (for which the comparison is false). -/
def numberGtZero (s : String) : Bool :=
  let t := ((s.data.dropWhile Char.isWhitespace).reverse.dropWhile
    Char.isWhitespace).reverse
  if t.isEmpty then false
  else if t.all Char.isDigit then digitsVal t > 0
  else false

/-- Embedding of `isEmptyPostMatch` in `api/proxy.js`: a `POST` to `/match` whose
`content-length` header is absent, empty or does not parse to a positive
number (`!(cl && Number(cl) > 0)`). -/
def isEmptyPostMatch (req : Request) (upstreamPath : String) : Bool :=
  if req.method != "POST" || upstreamPath != "/match" then false
  else
    match getH req.headers "content-length" with
    | none => true
    | some cl => !(cl != "" && numberGtZero cl)

/-- The fixed CORS allow-list of `corsAllow`. -/
def allowedOrigins : List String :=
  ["https://frontend-matcher.vercel.app",
   "http://localhost:3000",
   "http://127.0.0.1:3000"]

/-- Embedding of `corsAllow` in `api/proxy.js`, as a transformation of the response
header map: set `Access-Control-Allow-Origin`/`Vary` only for an
allow-listed `Origin`, then always set `Access-Control-Allow-Headers`
(echoing the preflight request or a default) and
`Access-Control-Allow-Methods`. -/
def corsAllow (req : Request) (res : Headers) : Headers :=
  let res :=
    match getH req.headers "origin" with
    | some o =>
      if allowedOrigins.contains o then
        setH (setH res "Access-Control-Allow-Origin" o) "Vary" "Origin"
      else res
    | none => res
  let acrh := getH req.headers "access-control-request-headers"
  let res := setH res "Access-Control-Allow-Headers"
    (if jsTruthyStr acrh then acrh.getD "" else "authorization,content-type")
  setH res "Access-Control-Allow-Methods" "GET,HEAD,POST,OPTIONS"

/-- Result of `validateSupabaseUserFromBearer`: the resolved
`{ userId, error }` object, or the function throwing. -/
inductive AuthResult where
  | res (userId : Option String) (error : Option String)
  | thrown (msg : String)

/-- The token-extraction step of the verifier:
`authz.startsWith("Bearer ") ? authz.slice(7) : null` over
`req.headers["authorization"] || ""`. -/
def bearerToken (req : Request) : Option String :=
  let authz := (getH req.headers "authorization").getD ""
  if jsStartsWith authz "Bearer " then some (String.mk (authz.data.drop 7))
  else none

/-- Embedding of `validateSupabaseUserFromBearer` in `api/proxy.js`: throw when the
Supabase environment is missing; `Unauthorized` when no (non-empty)
`Bearer` token is present; otherwise delegate to `getUser`, mapping an
explicit rejection to `Invalid token` and a transport throw to a throw. -/
def validateSupabaseUserFromBearer (env : Env) (req : Request)
    (getUser : GetUserResult) : AuthResult :=
  if !(jsTruthyStr env.SUPABASE_URL) || !(jsTruthyStr env.SUPABASE_SERVICE_ROLE_KEY) then
    .thrown "Supabase env missing (SUPABASE_URL / SUPABASE_SERVICE_ROLE_KEY)."
  else if !(jsTruthyStr (bearerToken req)) then .res none (some "Unauthorized")
  else
    match getUser with
    | .user id => .res (some id) none
    | .rejected => .res none (some "Invalid token")
    | .raise msg => .thrown msg

/-- The `protectedPaths` set of the handler. -/
def protectedPaths : List String := ["/match", "/debug-url"]

/-- The `isProbe` flag of the handler:
`upstreamPath === "/match" && isEmptyPostMatch(req, upstreamPath)`. -/
def isProbeReq (req : Request) : Bool :=
  let upstreamPath := resolveUpstreamPath req
  upstreamPath == "/match" && isEmptyPostMatch req upstreamPath

/-- The `needsAuth` flag of the handler: a `POST` to a protected path that is not
a probe. -/
def needsAuthB (req : Request) : Bool :=
  req.method == "POST" && protectedPaths.contains (resolveUpstreamPath req)
    && !(isProbeReq req)

/-- JavaScript `s.replace(/\/$/, "")`: drop one trailing slash. -/
def stripTrailingSlash (s : String) : String :=
  if s.data.getLast? == some '/' then String.mk s.data.dropLast else s

/-- The upstream target URL: origin with trailing slash stripped, plus the
`/`-prefixed resolved path. -/
def targetUrl (apiBase upstreamPath : String) : String :=
  stripTrailingSlash apiBase ++
    (if jsStartsWith upstreamPath "/" then upstreamPath else "/" ++ upstreamPath)

/-- The early-auth block of the handler: when `needsAuth`, run the
verifier; a thrown error becomes the 500 response, a truthy
`result.error` the 401 response, success yields `result.userId`. -/
def authStep (env : Env) (req : Request) (getUser : GetUserResult) :
    Except Response (Option String) :=
  if needsAuthB req then
    match validateSupabaseUserFromBearer env req getUser with
    | .thrown msg =>
      .error ⟨500, corsAllow req [],
        .json [("error", .s "Supabase validation failed"), ("detail", .s msg)]⟩
    | .res uid err =>
      if jsTruthyStr err then
        .error ⟨401, corsAllow req [], .json [("error", .s (err.getD ""))]⟩
      else .ok uid
  else .ok none

/-- The header-preparation block of the handler: copy every inbound header
except `host`/`content-length` (keys lower-cased), re-assert
`authorization` when the inbound request carries a truthy one, and inject
`x-user-id` for a bound identity. -/
def buildForwardHeaders (req : Request) (userId : Option String) : Headers :=
  let hs := req.headers.foldl (fun acc kv =>
    let key := lowerStr kv.1
    if key == "host" || key == "content-length" then acc
    else setH acc key kv.2) []
  let hs :=
    if jsTruthyStr (getH req.headers "authorization") then
      setH hs "authorization" ((getH req.headers "authorization").getD "")
    else hs
  if jsTruthyStr userId then setH hs "x-user-id" (userId.getD "") else hs

/-- The default-exported `handler` of `api/proxy.js`, as a function of the
environment, the request and the two external-call oracles. -/
def handler (env : Env) (req : Request) (getUser : GetUserResult)
    (uo : UpstreamOutcome) : HandlerResult :=
  let cors0 := corsAllow req []
  if req.method == "OPTIONS" then
    ⟨⟨204, cors0, .empty⟩, false, false, none⟩
  else if !(jsTruthyStr env.API_BASE) then
    ⟨⟨500, cors0, .json [("error", .s "API_BASE not defined")]⟩, false, false, none⟩
  else
    let apiBase := env.API_BASE.getD ""
    let upstreamPath := resolveUpstreamPath req
    let url := targetUrl apiBase upstreamPath
    match authStep env req getUser with
    | .error r => ⟨r, needsAuthB req, false, none⟩
    | .ok userId =>
      let fwd := buildForwardHeaders req userId
      let (fwd2, body, bodyRead) :=
        if !((["GET", "HEAD", "OPTIONS"] : List String).contains req.method)
            && !(isProbeReq req) then
          let ct := (getH req.headers "content-type").getD ""
          if jsIncludes ct "application/json" then
            (setH fwd "content-type" "application/json",
             ForwardBody.buffered (jsUtf8Transcode req.bodyChunks.flatten), true)
          else
            (fwd, ForwardBody.streamed, true)
        else (fwd, ForwardBody.none, false)
      let ureq : UpstreamReq := ⟨url, req.method, fwd2, body⟩
      match uo with
      | .ok status uHeaders uBody =>
        let resH := uHeaders.foldl (fun acc kv =>
          let lk := lowerStr kv.1
          if lk == "content-encoding" || lk == "transfer-encoding" then acc
          else setH acc kv.1 kv.2) cors0
        let resH := corsAllow req resH
        ⟨⟨status, resH, .bytes uBody⟩, needsAuthB req, bodyRead, some ureq⟩
      | .fail msg =>
        ⟨⟨502, cors0, .json [("error", .s "Bad gateway"), ("detail", .s msg)]⟩,
         needsAuthB req, bodyRead, some ureq⟩

/-! ## `api/proxy.js` — earlier diagnostic revision (`src/unnamed/part_001`)

The revision shares `isEmptyPostMatch` and the `/api/proxy` prefix
stripping verbatim with the stable revision, so those embeddings are
reused; its own `resolveUpstreamPath` differs in not percent-decoding the
`path` query value. -/

namespace V1

/-- Embedding of `resolveUpstreamPath` in the diagnostic revision: like the stable one
but without `decodeURIComponent` on the `path` query value. -/
def resolveUpstreamPath (req : Request) : String :=
  match req.queryPath with
  | some p =>
    if p.length > 0 then
      if jsStartsWith p "/" then p else "/" ++ p
    else
      FrontendMatcher.resolveUpstreamPath.resolveFallback req.url
  | none => FrontendMatcher.resolveUpstreamPath.resolveFallback req.url

/-- Result of one run of the diagnostic-revision handler. -/
structure Result where
  response : Response
  upstream : Option UpstreamReq

/-- The JSON object the debug mode returns
(`??debug=1` → no upstream call). `content_length` is
`req.headers["content-length"] || null`. -/
def debugBody (req : Request) (upstreamPath url base : String) :
    List (String × JVal) :=
  [("note", .s "debug mode (no upstream call)"),
   ("method", .s req.method),
   ("req_url", .s req.url),
   ("resolved_upstreamPath", .s upstreamPath),
   ("target_url", .s url),
   ("api_base", .s base),
   ("has_body", .b (!((["GET", "HEAD"] : List String).contains req.method))),
   ("content_length",
     (match getH req.headers "content-length" with
      | some cl => if cl != "" then .s cl else .nul
      | none => .nul)),
   ("auth_present", .b (jsTruthyStr (getH req.headers "authorization")))]

/-- The default-exported `handler` of the diagnostic revision: API_BASE
check, path resolution, debug short-circuit, header copy stripping
`host`/`content-length`/`authorization`, probe-aware streamed body,
upstream dispatch. No CORS and no auth gate exist in this revision. -/
def handler (env : Env) (req : Request) (uo : UpstreamOutcome) : Result :=
  if !(jsTruthyStr env.API_BASE) then
    ⟨⟨500, [], .json [("error", .s "API_BASE is not defined")]⟩, none⟩
  else
    let base := stripTrailingSlash (env.API_BASE.getD "")
    let upstreamPath := V1.resolveUpstreamPath req
    let url := base ++
      (if jsStartsWith upstreamPath "/" then upstreamPath else "/" ++ upstreamPath)
    if req.queryDebug == some "1" then
      ⟨⟨200, [], .json (debugBody req upstreamPath url base)⟩, none⟩
    else
      let hs := req.headers.foldl (fun acc kv =>
        let key := lowerStr kv.1
        if key == "host" || key == "content-length" || key == "authorization" then acc
        else setH acc key kv.2) []
      let body :=
        if !((["GET", "HEAD"] : List String).contains req.method)
            && !(isEmptyPostMatch req upstreamPath) then
          ForwardBody.streamed
        else ForwardBody.none
      let ureq : UpstreamReq := ⟨url, req.method, hs, body⟩
      match uo with
      | .ok status uHeaders uBody =>
        let resH := uHeaders.foldl (fun acc kv =>
          let lk := lowerStr kv.1
          if lk == "content-encoding" || lk == "transfer-encoding" then acc
          else setH acc kv.1 kv.2) []
        ⟨⟨status, resH, .bytes uBody⟩, some ureq⟩
      | .fail msg =>
        ⟨⟨502, [], .json [("error", .s "Bad gateway"), ("detail", .s msg)]⟩,
         some ureq⟩

end V1

/-! ## Derived definitions used by the claim statements -/

/-- The header assignments `corsAllow` makes for a given request: the
allow-listed origin echo (plus `Vary`) when applicable, and the two
unconditional headers. -/
def corsPairs (req : Request) : List (String × String) :=
  (match getH req.headers "origin" with
   | some o =>
     if allowedOrigins.contains o then
       [("Access-Control-Allow-Origin", o), ("Vary", "Origin")]
     else []
   | none => []) ++
  [("Access-Control-Allow-Headers",
    (let acrh := getH req.headers "access-control-request-headers"
     if jsTruthyStr acrh then acrh.getD "" else "authorization,content-type")),
   ("Access-Control-Allow-Methods", "GET,HEAD,POST,OPTIONS")]

/-- Failure shapes of the verifier call: the function threw, or it
resolved with a truthy `error` field. -/
def authFails : AuthResult → Prop
  | .thrown _ => True
  | .res _ e => jsTruthyStr e = true

/-- A fully configured environment, used by concrete witnesses. -/
def envOK : Env :=
  ⟨some "https://up.example", some "https://supa.example", some "key"⟩

/-- A concrete cross-origin GET from the allow-listed frontend origin. -/
def reqOriginAllowed : Request :=
  ⟨"GET", "/api/proxy/", none, none,
   [("origin", "https://frontend-matcher.vercel.app")], []⟩

/-- A concrete empty `POST /match` probe that carries a Bearer token. -/
def reqProbeWithAuth : Request :=
  ⟨"POST", "/api/proxy/match", none, none,
   [("authorization", "Bearer abc")], []⟩

/-- A concrete empty `POST /match` probe with no `Authorization`. -/
def reqProbePlain : Request :=
  ⟨"POST", "/api/proxy/match", none, none, [("content-length", "0")], []⟩

/-- A concrete authenticated JSON `POST /match` with a body. -/
def reqAuthPost : Request :=
  ⟨"POST", "/api/proxy/match", none, none,
   [("content-length", "5"), ("authorization", "Bearer tok"),
    ("content-type", "application/json")], [[123], [125]]⟩

/-- A concrete authenticated JSON `POST /match` whose single body byte
`0xFF` is not valid UTF-8. -/
def reqBadUtf8 : Request :=
  ⟨"POST", "/api/proxy/match", none, none,
   [("content-length", "1"), ("authorization", "Bearer tok"),
    ("content-type", "application/json")], [[0xFF]]⟩

/-- A concrete request selecting the upstream path through
`path=%2Fmatch`. -/
def reqPathEnc : Request :=
  ⟨"POST", "/api/proxy?path=%2Fmatch", some "%2Fmatch", none, [], []⟩

/-- A concrete request to the diagnostic revision with `debug=1`. -/
def reqDebug : Request :=
  ⟨"POST", "/api/proxy/match?debug=1", none, some "1",
   [("authorization", "Bearer abc")], []⟩

/-- Field lookup in a JSON object body. -/
def getJ (o : List (String × JVal)) (k : String) : Option JVal :=
  (o.find? (fun p => p.1 == k)).map (·.2)

/-- Field lookup when the response body is a JSON object, else `none`. -/
def respJsonField (b : RespBody) (k : String) : Option JVal :=
  match b with
  | .json o => getJ o k
  | _ => Option.none

/-! ## Header-map lemmas -/

theorem getH_setH (hs : Headers) (k k' v : String) :
    getH (setH hs k' v) k = if k' == k then some v else getH hs k := by
  induction hs with
  | nil =>
    by_cases h : k' == k <;> simp [setH, getH, List.find?, h]
  | cons p rest ih =>
    by_cases hp : p.1 == k'
    · have hp' : p.1 = k' := by simpa using hp
      by_cases h : k' == k <;> simp [setH, getH, List.find?, hp, hp', h]
    · simp only [setH, hp, if_neg]
      by_cases h : p.1 == k
      · have hk : p.1 = k := by simpa using h
        have : ¬(k' == k) := by
          simp only [beq_iff_eq] at hp ⊢
          exact fun he => hp (hk ▸ he.symm)
        simp [getH, List.find?, h, this]
      · simp only [getH, List.find?, h] at ih ⊢
        exact ih

theorem getH_setH_self (hs : Headers) (k v : String) :
    getH (setH hs k v) k = some v := by
  simp [getH_setH]

theorem getH_setH_ne (hs : Headers) (k k' v : String) (h : k' ≠ k) :
    getH (setH hs k' v) k = getH hs k := by
  simp [getH_setH, h]

/-- Folding the header-copy step of `buildForwardHeaders` over entries
none of which lower-cases to `k` leaves the binding of `k` unchanged. -/
theorem getH_copyFold (l : List (String × String)) (acc : Headers) (k : String)
    (h : ∀ p ∈ l, lowerStr p.1 ≠ k) :
    getH (l.foldl (fun acc kv =>
      let key := lowerStr kv.1
      if key == "host" || key == "content-length" then acc
      else setH acc key kv.2) acc) k = getH acc k := by
  induction l generalizing acc with
  | nil => rfl
  | cons p rest ih =>
    have hp : lowerStr p.1 ≠ k := h p (List.mem_cons_self p rest)
    have hrest : ∀ q ∈ rest, lowerStr q.1 ≠ k :=
      fun q hq => h q (List.mem_cons_of_mem p hq)
    simp only [List.foldl_cons]
    by_cases hc : (lowerStr p.1 == "host" || lowerStr p.1 == "content-length") = true
    · simpa [hc] using ih acc hrest
    · have := ih (setH acc (lowerStr p.1) p.2) hrest
      simpa [hc, getH_setH_ne _ _ _ _ hp] using this

/-! ## CORS lemmas -/

/-- Whatever header map `corsAllow` starts from, every assignment in
`corsPairs` is present in its output. -/
theorem corsAllow_sets (req : Request) (hs : Headers) :
    ∀ p ∈ corsPairs req, getH (corsAllow req hs) p.1 = some p.2 := by
  intro p hp
  unfold corsPairs at hp
  unfold corsAllow
  cases ho : getH req.headers "origin" with
  | none =>
    simp only [ho, List.nil_append, List.mem_cons, List.mem_singleton,
      List.not_mem_nil, or_false] at hp
    rcases hp with h | h <;> subst h <;> simp [getH_setH]
  | some o =>
    by_cases hc : allowedOrigins.contains o
    · have hm : o ∈ allowedOrigins := by simpa using hc
      simp only [ho, hc, if_true, List.cons_append, List.nil_append,
        List.mem_cons, List.not_mem_nil, or_false] at hp
      rcases hp with h | h | h | h <;> subst h <;> simp [getH_setH, hm]
    · have hm : o ∉ allowedOrigins := by simpa using hc
      simp only [ho, hc, if_false, Bool.false_eq_true, List.nil_append,
        List.mem_cons, List.not_mem_nil, or_false] at hp
      rcases hp with h | h <;> subst h <;> simp [getH_setH, hm]

/-! ## Auth-gate lemmas -/

theorem needsAuth_method (req : Request) (hn : needsAuthB req = true) :
    req.method = "POST" := by
  unfold needsAuthB at hn
  simp only [Bool.and_eq_true, beq_iff_eq] at hn
  exact hn.1.1

theorem authStep_error_of_fails (env : Env) (req : Request) (g : GetUserResult)
    (hn : needsAuthB req = true)
    (hf : authFails (validateSupabaseUserFromBearer env req g)) :
    ∃ r, authStep env req g = Except.error r ∧
      r.headers = corsAllow req [] ∧ (r.status = 401 ∨ r.status = 500) := by
  unfold authStep
  rw [if_pos hn]
  cases hv : validateSupabaseUserFromBearer env req g with
  | thrown m => exact ⟨_, rfl, rfl, Or.inr rfl⟩
  | res uid e =>
    unfold authFails at hf
    rw [hv] at hf
    simp only [hf, if_true]
    exact ⟨_, rfl, rfl, Or.inl rfl⟩

theorem authStep_error_headers (env : Env) (req : Request) (g : GetUserResult)
    (r : Response) (h : authStep env req g = Except.error r) :
    r.headers = corsAllow req [] := by
  unfold authStep at h
  by_cases hn : needsAuthB req = true
  · rw [if_pos hn] at h
    cases hv : validateSupabaseUserFromBearer env req g with
    | thrown m =>
      rw [hv] at h
      injection h with h'
      rw [← h']
    | res uid e =>
      rw [hv] at h
      by_cases he : jsTruthyStr e = true
      · simp only [he, if_true] at h
        injection h with h'
        rw [← h']
      · simp only [he, if_false, Bool.false_eq_true] at h
        exact absurd h (by simp)
  · rw [if_neg hn] at h
    exact absurd h (by simp)

theorem authStep_not_needed (env : Env) (req : Request) (g : GetUserResult)
    (hn : needsAuthB req = false) : authStep env req g = Except.ok none := by
  unfold authStep
  simp [hn]

/-- Once the auth block errors, the handler returns that response with no
body byte consumed and no upstream call. -/
theorem handler_authError (env : Env) (req : Request) (g : GetUserResult)
    (uo : UpstreamOutcome) (r : Response)
    (hm : (req.method == "OPTIONS") = false)
    (hA : jsTruthyStr env.API_BASE = true)
    (hstep : authStep env req g = Except.error r) :
    handler env req g uo = ⟨r, needsAuthB req, false, none⟩ := by
  unfold handler
  simp [hm, hA, hstep]

/-! ## Claim theorems -/

/-- C1: with the upstream origin configured, the handler attempts
identity verification exactly when the request method is `POST`, the
resolved upstream path is in the protected path set, and the request is
not classified as a probe; for every other request the verifier is never
invoked. -/
theorem C1_auth_gate_iff (env : Env) (req : Request) (g : GetUserResult)
    (uo : UpstreamOutcome) (hA : jsTruthyStr env.API_BASE = true) :
    (handler env req g uo).verifierCalled = true ↔
      (req.method = "POST" ∧ resolveUpstreamPath req ∈ protectedPaths ∧
        isProbeReq req = false) := by
  have hneeds : needsAuthB req = true ↔
      (req.method = "POST" ∧ resolveUpstreamPath req ∈ protectedPaths ∧
        isProbeReq req = false) := by
    unfold needsAuthB
    simp [Bool.and_eq_true, and_assoc]
  by_cases hm : (req.method == "OPTIONS") = true
  · have hm' : req.method = "OPTIONS" := by simpa using hm
    unfold handler
    simp only [hm, if_true]
    constructor
    · intro h; exact absurd h (by simp)
    · rintro ⟨h, -, -⟩
      exact absurd (hm' ▸ h) (by decide)
  · unfold handler
    simp only [hm, Bool.false_eq_true, if_false, hA, Bool.not_true]
    cases hstep : authStep env req g with
    | error r => simpa using hneeds
    | ok uid =>
      cases uo with
      | ok s hs b => simpa using hneeds
      | fail m => simpa using hneeds

/-- Witness for C1 at a concrete protected `POST` with a body: the
verifier is invoked. -/
theorem C1_auth_gate_iff_witness :
    jsTruthyStr envOK.API_BASE = true ∧
    ((handler envOK
        ⟨"POST", "/api/proxy/match", none, none, [("content-length", "5")], [[1]]⟩
        .rejected (.ok 200 [] [])).verifierCalled = true ↔
      ("POST" = "POST" ∧
        resolveUpstreamPath
          ⟨"POST", "/api/proxy/match", none, none, [("content-length", "5")], [[1]]⟩
          ∈ protectedPaths ∧
        isProbeReq
          ⟨"POST", "/api/proxy/match", none, none, [("content-length", "5")], [[1]]⟩
          = false)) :=
  ⟨by decide,
   C1_auth_gate_iff envOK
     ⟨"POST", "/api/proxy/match", none, none, [("content-length", "5")], [[1]]⟩
     .rejected (.ok 200 [] []) (by decide)⟩

/-- C2: whenever authentication is required and the verifier fails —
missing token, rejected token, or a thrown verifier failure — the handler
answers 401 or 500 without consuming any request-body byte and without
issuing the upstream call. -/
theorem C2_auth_failure_short_circuits (env : Env) (req : Request)
    (g : GetUserResult) (uo : UpstreamOutcome)
    (hA : jsTruthyStr env.API_BASE = true)
    (hn : needsAuthB req = true)
    (hf : authFails (validateSupabaseUserFromBearer env req g)) :
    ((handler env req g uo).response.status = 401 ∨
      (handler env req g uo).response.status = 500) ∧
    (handler env req g uo).bodyRead = false ∧
    (handler env req g uo).upstream = none := by
  obtain ⟨r, hstep, -, hst⟩ := authStep_error_of_fails env req g hn hf
  have hm : (req.method == "OPTIONS") = false := by
    simp [needsAuth_method req hn]
  rw [handler_authError env req g uo r hm hA hstep]
  exact ⟨hst, rfl, rfl⟩

/-- Witness for C2: a `POST /match` with a positive `content-length` and
no `Authorization` header is refused with no body read and no upstream
call. -/
theorem C2_auth_failure_short_circuits_witness :
    jsTruthyStr envOK.API_BASE = true ∧
    needsAuthB ⟨"POST", "/api/proxy/match", none, none,
      [("content-length", "5")], [[1, 2, 3, 4, 5]]⟩ = true ∧
    (((handler envOK
        ⟨"POST", "/api/proxy/match", none, none,
          [("content-length", "5")], [[1, 2, 3, 4, 5]]⟩
        .rejected (.ok 200 [] [])).response.status = 401 ∨
      (handler envOK
        ⟨"POST", "/api/proxy/match", none, none,
          [("content-length", "5")], [[1, 2, 3, 4, 5]]⟩
        .rejected (.ok 200 [] [])).response.status = 500) ∧
     (handler envOK
        ⟨"POST", "/api/proxy/match", none, none,
          [("content-length", "5")], [[1, 2, 3, 4, 5]]⟩
        .rejected (.ok 200 [] [])).bodyRead = false ∧
     (handler envOK
        ⟨"POST", "/api/proxy/match", none, none,
          [("content-length", "5")], [[1, 2, 3, 4, 5]]⟩
        .rejected (.ok 200 [] [])).upstream = none) :=
  ⟨by decide, by decide,
   C2_auth_failure_short_circuits envOK
     ⟨"POST", "/api/proxy/match", none, none,
       [("content-length", "5")], [[1, 2, 3, 4, 5]]⟩
     .rejected (.ok 200 [] []) (by decide) (by decide) rfl⟩

/-- C6 counterexample: with `API_BASE` absent, an `OPTIONS` request is
answered 204 by the CORS-preflight short-circuit, not 500 — refuting
"for every inbound request, regardless of method or path" and the claim
that the configuration check precedes every other check. -/
theorem C6_counterexample :
    (handler ⟨none, none, none⟩
      ⟨"OPTIONS", "/api/proxy/match", none, none, [], []⟩
      .rejected (.fail "unreachable")).response.status = 204 ∧
    (handler ⟨none, none, none⟩
      ⟨"OPTIONS", "/api/proxy/match", none, none, [], []⟩
      .rejected (.fail "unreachable")).response.status ≠ 500 := by decide

/-- C6 as amended: if `API_BASE` is absent (or empty), every request
whose method is not `OPTIONS` receives HTTP 500, and the check precedes
every other error check — no verifier call, no body byte consumed, no
upstream call. (`OPTIONS` requests are answered 204 by the preflight
short-circuit that runs before the configuration check.) -/
theorem C6_config_missing_500 (env : Env) (req : Request) (g : GetUserResult)
    (uo : UpstreamOutcome) (hA : jsTruthyStr env.API_BASE = false)
    (hm : req.method ≠ "OPTIONS") :
    (handler env req g uo).response.status = 500 ∧
    (handler env req g uo).verifierCalled = false ∧
    (handler env req g uo).bodyRead = false ∧
    (handler env req g uo).upstream = none := by
  have hm' : (req.method == "OPTIONS") = false := by simpa using hm
  unfold handler
  simp [hm', hA]

/-- Witness for the amended C6 at a concrete `GET` request. -/
theorem C6_config_missing_500_witness :
    jsTruthyStr (Env.mk none none none).API_BASE = false ∧
    "GET" ≠ "OPTIONS" ∧
    ((handler ⟨none, none, none⟩ ⟨"GET", "/api/proxy/x", none, none, [], []⟩
        .rejected (.fail "unreachable")).response.status = 500 ∧
     (handler ⟨none, none, none⟩ ⟨"GET", "/api/proxy/x", none, none, [], []⟩
        .rejected (.fail "unreachable")).verifierCalled = false ∧
     (handler ⟨none, none, none⟩ ⟨"GET", "/api/proxy/x", none, none, [], []⟩
        .rejected (.fail "unreachable")).bodyRead = false ∧
     (handler ⟨none, none, none⟩ ⟨"GET", "/api/proxy/x", none, none, [], []⟩
        .rejected (.fail "unreachable")).upstream = none) :=
  ⟨by decide, by decide,
   C6_config_missing_500 ⟨none, none, none⟩
     ⟨"GET", "/api/proxy/x", none, none, [], []⟩
     .rejected (.fail "unreachable") (by decide) (by decide)⟩

/-- C7: under the allow-listed CORS policy, a request whose `Origin` is
in the fixed configured set gets exactly that origin echoed in
`Access-Control-Allow-Origin`; a request whose `Origin` is present but
not in the set gets no such header from the policy at all. -/
theorem C7_cors_allowlist (req : Request) (o : String)
    (ho : getH req.headers "origin" = some o) :
    (o ∈ allowedOrigins →
      getH (corsAllow req []) "Access-Control-Allow-Origin" = some o) ∧
    (o ∉ allowedOrigins →
      getH (corsAllow req []) "Access-Control-Allow-Origin" = none) := by
  unfold corsAllow
  rw [ho]
  constructor
  · intro hm
    simp [hm, getH_setH]
  · intro hm
    have hc : allowedOrigins.contains o = false := by simpa using hm
    simp only [hc, Bool.false_eq_true, if_false, getH_setH]
    rw [if_neg (by decide), if_neg (by decide)]
    rfl

/-- Witness for C7 at the allow-listed frontend origin. -/
theorem C7_cors_allowlist_witness :
    getH reqOriginAllowed.headers "origin" =
      some "https://frontend-matcher.vercel.app" ∧
    (("https://frontend-matcher.vercel.app" ∈ allowedOrigins →
      getH (corsAllow reqOriginAllowed []) "Access-Control-Allow-Origin" =
        some "https://frontend-matcher.vercel.app") ∧
     ("https://frontend-matcher.vercel.app" ∉ allowedOrigins →
      getH (corsAllow reqOriginAllowed []) "Access-Control-Allow-Origin" =
        none)) :=
  ⟨by decide, C7_cors_allowlist reqOriginAllowed
    "https://frontend-matcher.vercel.app" (by decide)⟩

/-- C5: every response the handler produces — preflight, missing
configuration, auth failure, upstream success or upstream transport
failure — carries every header assignment the CORS policy computes for
the request; in particular, on the success path they are re-applied after
the upstream response headers were copied, so an upstream header cannot
displace them. -/
theorem C5_cors_on_every_response (env : Env) (req : Request)
    (g : GetUserResult) (uo : UpstreamOutcome) :
    ∀ p ∈ corsPairs req,
      getH (handler env req g uo).response.headers p.1 = some p.2 := by
  intro p hp
  unfold handler
  by_cases hm : (req.method == "OPTIONS") = true
  · simp only [hm, if_true]
    exact corsAllow_sets req [] p hp
  · by_cases hA : jsTruthyStr env.API_BASE = true
    · simp only [hm, Bool.false_eq_true, if_false, hA, Bool.not_true]
      cases hstep : authStep env req g with
      | error r =>
        simp only [hstep]
        rw [show (⟨r, needsAuthB req, false, none⟩ :
          HandlerResult).response.headers = r.headers from rfl]
        rw [authStep_error_headers env req g r hstep]
        exact corsAllow_sets req [] p hp
      | ok uid =>
        simp only [hstep]
        cases uo with
        | ok s hs b => exact corsAllow_sets req _ p hp
        | fail m => exact corsAllow_sets req [] p hp
    · have hA' : jsTruthyStr env.API_BASE = false := by
        simpa using hA
      simp only [hm, Bool.false_eq_true, if_false, hA', Bool.not_false, if_true]
      exact corsAllow_sets req [] p hp

/-- Witness for C5: a request from the allow-listed origin, answered via
a successful upstream call whose response headers try to overwrite the
CORS headers — the policy values survive. -/
theorem C5_cors_on_every_response_witness :
    ("Access-Control-Allow-Origin", "https://frontend-matcher.vercel.app")
      ∈ corsPairs reqOriginAllowed ∧
    getH (handler envOK reqOriginAllowed .rejected
        (.ok 200 [("Access-Control-Allow-Origin", "https://evil.example"),
                  ("Access-Control-Allow-Methods", "DELETE")] [1, 2])
      ).response.headers "Access-Control-Allow-Origin" =
      some "https://frontend-matcher.vercel.app" :=
  ⟨by decide,
   C5_cors_on_every_response envOK reqOriginAllowed .rejected
     (.ok 200 [("Access-Control-Allow-Origin", "https://evil.example"),
               ("Access-Control-Allow-Methods", "DELETE")] [1, 2])
     ("Access-Control-Allow-Origin", "https://frontend-matcher.vercel.app")
     (by decide)⟩

/-- With no `authorization` binding among the (lower-case-keyed) inbound
headers and no bound user, the forwarded header set has no
`authorization` binding either. -/
theorem buildForwardHeaders_no_auth (req : Request)
    (hlk : ∀ q ∈ req.headers, lowerStr q.1 = q.1)
    (hauth : getH req.headers "authorization" = none) :
    getH (buildForwardHeaders req none) "authorization" = none := by
  have hfind : List.find? (fun p => p.1 == "authorization") req.headers = none := by
    unfold getH at hauth
    exact Option.map_eq_none'.mp hauth
  have hne : ∀ q ∈ req.headers, lowerStr q.1 ≠ "authorization" := by
    intro q hq
    rw [hlk q hq]
    have h := List.find?_eq_none.mp hfind q hq
    simpa using h
  unfold buildForwardHeaders
  rw [hauth]
  simp only [jsTruthyStr, Bool.false_eq_true, if_false]
  rw [getH_copyFold req.headers [] "authorization" hne]
  rfl

/-- C3 counterexample: an empty `POST /match` probe that carries an
`Authorization` header reaches the dispatcher WITH that header in the
forwarded set — the handler forwards caller credentials even for probes,
refuting "without an Authorization header in the forwarded header set". -/
theorem C3_counterexample :
    isProbeReq reqProbeWithAuth = true ∧
    (handler envOK reqProbeWithAuth .rejected (.ok 200 [] [])).verifierCalled
      = false ∧
    ((handler envOK reqProbeWithAuth .rejected (.ok 200 [] [])).upstream.map
      (fun u => getH u.headers "authorization")) = some (some "Bearer abc") := by
  decide

/-- C3 as amended: a `POST` resolving to `/match` whose `content-length`
is absent or `"0"` is classified as a probe, is exempt from
authentication, and reaches the dispatcher; its forwarded header set
omits `Authorization` only when the inbound request itself carried
none. -/
theorem C3_probe_reaches_upstream (env : Env) (req : Request)
    (g : GetUserResult) (uo : UpstreamOutcome)
    (hA : jsTruthyStr env.API_BASE = true)
    (hm : req.method = "POST")
    (hp : resolveUpstreamPath req = "/match")
    (hcl : getH req.headers "content-length" = none ∨
           getH req.headers "content-length" = some "0")
    (hlk : ∀ q ∈ req.headers, lowerStr q.1 = q.1) :
    isProbeReq req = true ∧
    (handler env req g uo).verifierCalled = false ∧
    (handler env req g uo).upstream.isSome = true ∧
    (getH req.headers "authorization" = none →
      (handler env req g uo).upstream.map
        (fun u => getH u.headers "authorization") = some none) := by
  have hprobe : isProbeReq req = true := by
    have h1 : isEmptyPostMatch req "/match" = true := by
      unfold isEmptyPostMatch
      rw [hm]
      rcases hcl with h | h <;> rw [h] <;> decide
    unfold isProbeReq
    rw [hp]
    simp [h1]
  have hna : needsAuthB req = false := by
    unfold needsAuthB
    simp [hprobe]
  have hstep := authStep_not_needed env req g hna
  have hm' : (req.method == "OPTIONS") = false := by simp [hm]
  have hb : (!((["GET", "HEAD", "OPTIONS"] : List String).contains req.method)
      && !(isProbeReq req)) = false := by simp [hprobe]
  have hup : (handler env req g uo).upstream =
      some ⟨targetUrl (env.API_BASE.getD "") (resolveUpstreamPath req),
            req.method, buildForwardHeaders req none, ForwardBody.none⟩ := by
    unfold handler
    simp only [hm', Bool.false_eq_true, if_false, hA, Bool.not_true, hstep, hb]
    cases uo <;> rfl
  have hverif : (handler env req g uo).verifierCalled = false := by
    unfold handler
    simp only [hm', Bool.false_eq_true, if_false, hA, Bool.not_true, hstep]
    cases uo <;> simpa using hna
  refine ⟨hprobe, hverif, by rw [hup]; rfl, ?_⟩
  intro hauth
  rw [hup]
  simp only [Option.map_some']
  rw [buildForwardHeaders_no_auth req hlk hauth]

/-- Witness for the amended C3 at a concrete probe without credentials. -/
theorem C3_probe_reaches_upstream_witness :
    (isProbeReq reqProbePlain = true ∧
     (handler envOK reqProbePlain .rejected (.ok 200 [] [])).verifierCalled
       = false ∧
     (handler envOK reqProbePlain .rejected (.ok 200 [] [])).upstream.isSome
       = true ∧
     (getH reqProbePlain.headers "authorization" = none →
       (handler envOK reqProbePlain .rejected (.ok 200 [] [])).upstream.map
         (fun u => getH u.headers "authorization") = some none)) :=
  C3_probe_reaches_upstream envOK reqProbePlain .rejected (.ok 200 [] [])
    (by decide) (by decide) (by decide) (Or.inr (by decide)) (by decide)

/-- Verifier outcome when the Supabase environment is missing. -/
theorem validate_missing_env (env : Env) (req : Request) (g : GetUserResult)
    (h : jsTruthyStr env.SUPABASE_URL = false ∨
         jsTruthyStr env.SUPABASE_SERVICE_ROLE_KEY = false) :
    validateSupabaseUserFromBearer env req g =
      .thrown "Supabase env missing (SUPABASE_URL / SUPABASE_SERVICE_ROLE_KEY)." := by
  unfold validateSupabaseUserFromBearer
  rcases h with h | h <;> simp [h]

/-- Verifier outcome when no truthy Bearer token is present. -/
theorem validate_no_token (env : Env) (req : Request) (g : GetUserResult)
    (hu : jsTruthyStr env.SUPABASE_URL = true)
    (hk : jsTruthyStr env.SUPABASE_SERVICE_ROLE_KEY = true)
    (ht : jsTruthyStr (bearerToken req) = false) :
    validateSupabaseUserFromBearer env req g = .res none (some "Unauthorized") := by
  unfold validateSupabaseUserFromBearer
  simp [hu, hk, ht]

/-- Verifier outcome when `getUser` rejects the token. -/
theorem validate_rejected (env : Env) (req : Request)
    (hu : jsTruthyStr env.SUPABASE_URL = true)
    (hk : jsTruthyStr env.SUPABASE_SERVICE_ROLE_KEY = true)
    (ht : jsTruthyStr (bearerToken req) = true) :
    validateSupabaseUserFromBearer env req .rejected =
      .res none (some "Invalid token") := by
  unfold validateSupabaseUserFromBearer
  simp [hu, hk, ht]

/-- Verifier outcome when the `getUser` call itself throws. -/
theorem validate_raise (env : Env) (req : Request) (m : String)
    (hu : jsTruthyStr env.SUPABASE_URL = true)
    (hk : jsTruthyStr env.SUPABASE_SERVICE_ROLE_KEY = true)
    (ht : jsTruthyStr (bearerToken req) = true) :
    validateSupabaseUserFromBearer env req (.raise m) = .thrown m := by
  unfold validateSupabaseUserFromBearer
  simp [hu, hk, ht]

/-- An auth-gated request whose verifier resolves a non-empty `error`
is answered 401. -/
theorem handler_401_of_error_result (env : Env) (req : Request)
    (g : GetUserResult) (uo : UpstreamOutcome) (e : String)
    (hA : jsTruthyStr env.API_BASE = true) (hn : needsAuthB req = true)
    (hv : validateSupabaseUserFromBearer env req g = .res none (some e))
    (he : e ≠ "") :
    (handler env req g uo).response.status = 401 := by
  have htr : jsTruthyStr (some e) = true := by simp [jsTruthyStr, he]
  have hstep : authStep env req g =
      .error ⟨401, corsAllow req [], .json [("error", .s e)]⟩ := by
    unfold authStep
    rw [if_pos hn, hv]
    simp [htr]
  have hm : (req.method == "OPTIONS") = false := by
    simp [needsAuth_method req hn]
  rw [handler_authError env req g uo _ hm hA hstep]

/-- An auth-gated request whose verifier throws is answered 500. -/
theorem handler_500_of_thrown (env : Env) (req : Request)
    (g : GetUserResult) (uo : UpstreamOutcome) (m : String)
    (hA : jsTruthyStr env.API_BASE = true) (hn : needsAuthB req = true)
    (hv : validateSupabaseUserFromBearer env req g = .thrown m) :
    (handler env req g uo).response.status = 500 := by
  have hstep : authStep env req g =
      .error ⟨500, corsAllow req [],
        .json [("error", .s "Supabase validation failed"), ("detail", .s m)]⟩ := by
    unfold authStep
    rw [if_pos hn, hv]
  have hm : (req.method == "OPTIONS") = false := by
    simp [needsAuth_method req hn]
  rw [handler_authError env req g uo _ hm hA hstep]

/-- C4: on an auth-gated request, with the Supabase environment present
an absent Bearer token or a verifier rejection yields HTTP 401 while a
thrown verifier call yields HTTP 500; with the Supabase environment
missing the verifier's own configuration failure yields HTTP 500 — and
the two outcomes are distinguishable by status code. -/
theorem C4_auth_error_codes (env : Env) (req : Request) (g : GetUserResult)
    (uo : UpstreamOutcome)
    (hA : jsTruthyStr env.API_BASE = true) (hn : needsAuthB req = true) :
    ((jsTruthyStr env.SUPABASE_URL = true ∧
      jsTruthyStr env.SUPABASE_SERVICE_ROLE_KEY = true) →
      ((jsTruthyStr (bearerToken req) = false →
          (handler env req g uo).response.status = 401) ∧
       (jsTruthyStr (bearerToken req) = true → g = .rejected →
          (handler env req g uo).response.status = 401) ∧
       (∀ m, jsTruthyStr (bearerToken req) = true → g = .raise m →
          (handler env req g uo).response.status = 500))) ∧
    ((jsTruthyStr env.SUPABASE_URL = false ∨
      jsTruthyStr env.SUPABASE_SERVICE_ROLE_KEY = false) →
      (handler env req g uo).response.status = 500) ∧
    (401 : Nat) ≠ 500 := by
  refine ⟨fun ⟨hu, hk⟩ => ⟨?_, ?_, ?_⟩, fun h => ?_, by decide⟩
  · intro ht
    exact handler_401_of_error_result env req g uo "Unauthorized" hA hn
      (validate_no_token env req g hu hk ht) (by decide)
  · intro ht hg
    subst hg
    exact handler_401_of_error_result env req .rejected uo "Invalid token" hA hn
      (validate_rejected env req hu hk ht) (by decide)
  · intro m ht hg
    subst hg
    exact handler_500_of_thrown env req (.raise m) uo m hA hn
      (validate_raise env req m hu hk ht)
  · exact handler_500_of_thrown env req g uo _ hA hn
      (validate_missing_env env req g h)

/-- Witness for C4: a protected `POST` with a Bearer token the verifier
rejects is answered 401. -/
theorem C4_auth_error_codes_witness :
    jsTruthyStr envOK.API_BASE = true ∧ needsAuthB reqAuthPost = true ∧
    (handler envOK reqAuthPost .rejected (.ok 200 [] [])).response.status
      = 401 :=
  ⟨by decide, by decide,
   ((C4_auth_error_codes envOK reqAuthPost .rejected (.ok 200 [] [])
       (by decide) (by decide)).1
     ⟨by decide, by decide⟩).2.1 (by decide) rfl⟩

/-! ## UTF-8 transcode lemmas -/

theorem toNat_ofNat_valid (n : Nat) (h : n.isValidChar) :
    (Char.ofNat n).toNat = n := by
  unfold Char.ofNat
  rw [dif_pos h]
  rfl

theorem encodeCp_one (n : Nat) (h : n < 0x80) :
    utf8EncodeCp (Char.ofNat n) = [n] := by
  simp only [utf8EncodeCp]
  rw [toNat_ofNat_valid n (Or.inl (by omega))]
  rw [if_pos h]

theorem encodeCp_two (n : Nat) (h1 : 0x80 ≤ n) (h2 : n < 0x800) :
    utf8EncodeCp (Char.ofNat n) = [0xC0 + n / 64, 0x80 + n % 64] := by
  simp only [utf8EncodeCp]
  rw [toNat_ofNat_valid n (Or.inl (by omega))]
  rw [if_neg (by omega), if_pos h2]

theorem encodeCp_three (n : Nat) (h1 : 0x800 ≤ n) (h2 : n < 0x10000)
    (h3 : n < 0xD800 ∨ 0xDFFF < n) :
    utf8EncodeCp (Char.ofNat n) =
      [0xE0 + n / 4096, 0x80 + n / 64 % 64, 0x80 + n % 64] := by
  simp only [utf8EncodeCp]
  have hv : n.isValidChar := by
    rcases h3 with h | h
    · exact Or.inl h
    · exact Or.inr ⟨h, by omega⟩
  rw [toNat_ofNat_valid n hv]
  rw [if_neg (by omega), if_neg (by omega), if_pos h2]

theorem encodeCp_four (n : Nat) (h1 : 0x10000 ≤ n) (h2 : n ≤ 0x10FFFF) :
    utf8EncodeCp (Char.ofNat n) =
      [0xF0 + n / 262144, 0x80 + n / 4096 % 64, 0x80 + n / 64 % 64,
       0x80 + n % 64] := by
  simp only [utf8EncodeCp]
  rw [toNat_ofNat_valid n (Or.inr ⟨by omega, by omega⟩)]
  rw [if_neg (by omega), if_neg (by omega), if_neg (by omega)]

theorem utf8Bytes_cons (c : Char) (cs : List Char) :
    utf8Bytes (c :: cs) = utf8EncodeCp c ++ utf8Bytes cs := rfl

theorem go_one (fuel b : Nat) (rest : List Nat) (h : b < 0x80) :
    utf8DecodeLossyGo (fuel + 1) (b :: rest) =
      Char.ofNat b :: utf8DecodeLossyGo fuel rest := by
  simp only [utf8DecodeLossyGo]
  rw [if_pos h]

theorem go_two (fuel b b₁ : Nat) (rest : List Nat)
    (hb : 0xC2 ≤ b) (hb' : b < 0xE0) (hc : isCont b₁ = true) :
    utf8DecodeLossyGo (fuel + 1) (b :: b₁ :: rest) =
      Char.ofNat ((b - 0xC0) * 64 + (b₁ - 0x80)) ::
        utf8DecodeLossyGo fuel rest := by
  simp only [utf8DecodeLossyGo]
  rw [if_neg (by omega), if_neg (by omega), if_pos (by omega)]
  simp [hc]

theorem go_three (fuel b b₁ b₂ : Nat) (rest : List Nat)
    (hb : 0xE0 ≤ b) (hb' : b < 0xF0)
    (hg : (if b = 0xE0 then 0xA0 else 0x80) ≤ b₁ ∧
          b₁ ≤ (if b = 0xED then 0x9F else 0xBF))
    (hc2 : isCont b₂ = true) :
    utf8DecodeLossyGo (fuel + 1) (b :: b₁ :: b₂ :: rest) =
      Char.ofNat ((b - 0xE0) * 4096 + (b₁ - 0x80) * 64 + (b₂ - 0x80)) ::
        utf8DecodeLossyGo fuel rest := by
  simp only [utf8DecodeLossyGo]
  rw [if_neg (by omega), if_neg (by omega), if_neg (by omega),
    if_pos (by omega)]
  simp [hg, hc2]

theorem go_four (fuel b b₁ b₂ b₃ : Nat) (rest : List Nat)
    (hb : 0xF0 ≤ b) (hb' : b < 0xF5)
    (hg : (if b = 0xF0 then 0x90 else 0x80) ≤ b₁ ∧
          b₁ ≤ (if b = 0xF4 then 0x8F else 0xBF))
    (hc2 : isCont b₂ = true) (hc3 : isCont b₃ = true) :
    utf8DecodeLossyGo (fuel + 1) (b :: b₁ :: b₂ :: b₃ :: rest) =
      Char.ofNat ((b - 0xF0) * 262144 + (b₁ - 0x80) * 4096 +
          (b₂ - 0x80) * 64 + (b₃ - 0x80)) ::
        utf8DecodeLossyGo fuel rest := by
  simp only [utf8DecodeLossyGo]
  rw [if_neg (by omega), if_neg (by omega), if_neg (by omega),
    if_neg (by omega), if_pos (by omega)]
  simp [hg, hc2, hc3]

/-- One-step unfolding of the strict decoder at a cons cell, stated by
definitional equality so no generated equation lemmas are needed. -/
theorem utf8Decode_cons (b : Nat) (rest : List Nat) :
    utf8Decode (b :: rest) =
      (if b < 0x80 then
        (utf8Decode rest).map (fun cs => Char.ofNat b :: cs)
      else if b < 0xC0 then none
      else if b < 0xE0 then
        match rest with
        | b₁ :: rest' =>
          if isCont b₁ then
            let cp := (b - 0xC0) * 64 + (b₁ - 0x80)
            if cp < 0x80 then none
            else (utf8Decode rest').map (fun cs => Char.ofNat cp :: cs)
          else none
        | _ => none
      else if b < 0xF0 then
        match rest with
        | b₁ :: b₂ :: rest' =>
          if isCont b₁ ∧ isCont b₂ then
            let cp := (b - 0xE0) * 4096 + (b₁ - 0x80) * 64 + (b₂ - 0x80)
            if cp < 0x800 ∨ (0xD800 ≤ cp ∧ cp ≤ 0xDFFF) then none
            else (utf8Decode rest').map (fun cs => Char.ofNat cp :: cs)
          else none
        | _ => none
      else if b < 0xF5 then
        match rest with
        | b₁ :: b₂ :: b₃ :: rest' =>
          if isCont b₁ ∧ isCont b₂ ∧ isCont b₃ then
            let cp := (b - 0xF0) * 262144 + (b₁ - 0x80) * 4096 +
                      (b₂ - 0x80) * 64 + (b₃ - 0x80)
            if cp < 0x10000 ∨ cp > 0x10FFFF then none
            else (utf8Decode rest').map (fun cs => Char.ofNat cp :: cs)
          else none
        | _ => none
      else none) := by
  cases rest with
  | nil => rfl
  | cons b₁ r₁ =>
    cases r₁ with
    | nil => rfl
    | cons b₂ r₂ =>
      cases r₂ with
      | nil => rfl
      | cons b₃ r₃ => rfl

set_option maxHeartbeats 1600000 in
/-- On any byte list the strict decoder accepts, the lossy decoder (with
enough fuel) produces the same characters, and re-encoding them gives
back exactly the input bytes. -/
theorem utf8_roundtrip_go (fuel : Nat) :
    ∀ bs cs, bs.length ≤ fuel → utf8Decode bs = some cs →
      utf8DecodeLossyGo fuel bs = cs ∧ utf8Bytes cs = bs := by
  induction fuel with
  | zero =>
    intro bs cs hlen h
    have hbs : bs = [] := List.length_eq_zero.mp (Nat.le_zero.mp hlen)
    subst hbs
    injection h with h'
    subst h'
    exact ⟨rfl, rfl⟩
  | succ fuel ih =>
    intro bs cs hlen h
    match bs with
    | [] =>
      injection h with h'
      subst h'
      exact ⟨rfl, rfl⟩
    | b :: rest =>
      rw [utf8Decode_cons b rest] at h
      by_cases h1 : b < 0x80
      · rw [if_pos h1] at h
        obtain ⟨cs', hrest, hcs⟩ := Option.map_eq_some'.mp h
        subst hcs
        have hlen' : rest.length ≤ fuel := by
          simp only [List.length_cons] at hlen; omega
        obtain ⟨hlossy, henc⟩ := ih rest cs' hlen' hrest
        refine ⟨?_, ?_⟩
        · rw [go_one fuel b rest h1, hlossy]
        · rw [utf8Bytes_cons, encodeCp_one b h1, henc]
          rfl
      · rw [if_neg h1] at h
        by_cases h2 : b < 0xC0
        · rw [if_pos h2] at h
          exact Option.noConfusion h
        · rw [if_neg h2] at h
          by_cases h3 : b < 0xE0
          · rw [if_pos h3] at h
            cases rest with
            | nil => exact Option.noConfusion h
            | cons b₁ rest' =>
              dsimp only at h
              by_cases hc1 : isCont b₁ = true
              · rw [if_pos hc1] at h
                have hc1' : 0x80 ≤ b₁ ∧ b₁ < 0xC0 := by
                  simpa [isCont] using hc1
                by_cases hcp : (b - 0xC0) * 64 + (b₁ - 0x80) < 0x80
                · rw [if_pos hcp] at h
                  exact Option.noConfusion h
                · rw [if_neg hcp] at h
                  obtain ⟨cs', hrest, hcs⟩ := Option.map_eq_some'.mp h
                  subst hcs
                  have hlen' : rest'.length ≤ fuel := by
                    simp only [List.length_cons] at hlen; omega
                  obtain ⟨hlossy, henc⟩ := ih rest' cs' hlen' hrest
                  refine ⟨?_, ?_⟩
                  · rw [go_two fuel b b₁ rest' (by omega) (by omega) hc1,
                      hlossy]
                  · rw [utf8Bytes_cons,
                      encodeCp_two _ (by omega) (by omega), henc]
                    simp only [List.cons_append, List.nil_append,
                      List.cons.injEq]
                    refine ⟨by omega, by omega, trivial⟩
              · rw [if_neg hc1] at h
                exact Option.noConfusion h
          · rw [if_neg h3] at h
            by_cases h4 : b < 0xF0
            · rw [if_pos h4] at h
              cases rest with
              | nil => exact Option.noConfusion h
              | cons b₁ rest₁ =>
                cases rest₁ with
                | nil => exact Option.noConfusion h
                | cons b₂ rest' =>
                  dsimp only at h
                  by_cases hcc : (isCont b₁ ∧ isCont b₂)
                  · rw [if_pos hcc] at h
                    have hc1' : 0x80 ≤ b₁ ∧ b₁ < 0xC0 := by
                      have := hcc.1; simpa [isCont] using this
                    have hc2' : 0x80 ≤ b₂ ∧ b₂ < 0xC0 := by
                      have := hcc.2; simpa [isCont] using this
                    by_cases hcp : ((b - 0xE0) * 4096 + (b₁ - 0x80) * 64 +
                        (b₂ - 0x80) < 0x800 ∨
                        (0xD800 ≤ (b - 0xE0) * 4096 + (b₁ - 0x80) * 64 +
                          (b₂ - 0x80) ∧
                         (b - 0xE0) * 4096 + (b₁ - 0x80) * 64 +
                          (b₂ - 0x80) ≤ 0xDFFF))
                    · rw [if_pos hcp] at h
                      exact Option.noConfusion h
                    · rw [if_neg hcp] at h
                      rw [not_or] at hcp
                      obtain ⟨hlo, hval⟩ := hcp
                      rw [not_lt] at hlo
                      rw [not_and_or, not_le, not_le] at hval
                      obtain ⟨cs', hrest, hcs⟩ := Option.map_eq_some'.mp h
                      subst hcs
                      have hg : (if b = 0xE0 then 0xA0 else 0x80) ≤ b₁ ∧
                          b₁ ≤ (if b = 0xED then 0x9F else 0xBF) := by
                        constructor
                        · by_cases hE : b = 0xE0
                          · rw [if_pos hE]
                            subst hE
                            omega
                          · rw [if_neg hE]
                            omega
                        · by_cases hD : b = 0xED
                          · rw [if_pos hD]
                            subst hD
                            rcases hval with hval | hval <;> omega
                          · rw [if_neg hD]
                            omega
                      have hlen' : rest'.length ≤ fuel := by
                        simp only [List.length_cons] at hlen; omega
                      obtain ⟨hlossy, henc⟩ := ih rest' cs' hlen' hrest
                      have hc2 : isCont b₂ = true := by
                        simp [isCont]; omega
                      refine ⟨?_, ?_⟩
                      · rw [go_three fuel b b₁ b₂ rest' (by omega) (by omega)
                          hg hc2, hlossy]
                      · have hvd : (b - 0xE0) * 4096 + (b₁ - 0x80) * 64 +
                            (b₂ - 0x80) < 0xD800 ∨
                            0xDFFF < (b - 0xE0) * 4096 + (b₁ - 0x80) * 64 +
                            (b₂ - 0x80) := by
                          rcases hval with hval | hval
                          · exact Or.inl (by omega)
                          · exact Or.inr (by omega)
                        rw [utf8Bytes_cons,
                          encodeCp_three _ (by omega) (by omega) hvd, henc]
                        simp only [List.cons_append, List.nil_append,
                          List.cons.injEq]
                        refine ⟨by omega, by omega, by omega, trivial⟩
                  · rw [if_neg hcc] at h
                    exact Option.noConfusion h
            · rw [if_neg h4] at h
              by_cases h5 : b < 0xF5
              · rw [if_pos h5] at h
                cases rest with
                | nil => exact Option.noConfusion h
                | cons b₁ rest₁ =>
                  cases rest₁ with
                  | nil => exact Option.noConfusion h
                  | cons b₂ rest₂ =>
                    cases rest₂ with
                    | nil => exact Option.noConfusion h
                    | cons b₃ rest' =>
                      dsimp only at h
                      by_cases hcc : (isCont b₁ ∧ isCont b₂ ∧ isCont b₃)
                      · rw [if_pos hcc] at h
                        have hc1' : 0x80 ≤ b₁ ∧ b₁ < 0xC0 := by
                          have := hcc.1; simpa [isCont] using this
                        have hc2' : 0x80 ≤ b₂ ∧ b₂ < 0xC0 := by
                          have := hcc.2.1; simpa [isCont] using this
                        have hc3' : 0x80 ≤ b₃ ∧ b₃ < 0xC0 := by
                          have := hcc.2.2; simpa [isCont] using this
                        by_cases hcp : ((b - 0xF0) * 262144 +
                            (b₁ - 0x80) * 4096 + (b₂ - 0x80) * 64 +
                            (b₃ - 0x80) < 0x10000 ∨
                            (b - 0xF0) * 262144 + (b₁ - 0x80) * 4096 +
                            (b₂ - 0x80) * 64 + (b₃ - 0x80) > 0x10FFFF)
                        · rw [if_pos hcp] at h
                          exact Option.noConfusion h
                        · rw [if_neg hcp] at h
                          rw [not_or, not_lt, not_lt] at hcp
                          obtain ⟨hlo, hhi⟩ := hcp
                          obtain ⟨cs', hrest, hcs⟩ :=
                            Option.map_eq_some'.mp h
                          subst hcs
                          have hg : (if b = 0xF0 then 0x90 else 0x80) ≤ b₁ ∧
                              b₁ ≤ (if b = 0xF4 then 0x8F else 0xBF) := by
                            constructor
                            · by_cases hE : b = 0xF0
                              · rw [if_pos hE]
                                subst hE
                                omega
                              · rw [if_neg hE]
                                omega
                            · by_cases hD : b = 0xF4
                              · rw [if_pos hD]
                                subst hD
                                omega
                              · rw [if_neg hD]
                                omega
                          have hlen' : rest'.length ≤ fuel := by
                            simp only [List.length_cons] at hlen; omega
                          obtain ⟨hlossy, henc⟩ := ih rest' cs' hlen' hrest
                          have hc2 : isCont b₂ = true := by
                            simp [isCont]; omega
                          have hc3 : isCont b₃ = true := by
                            simp [isCont]; omega
                          refine ⟨?_, ?_⟩
                          · rw [go_four fuel b b₁ b₂ b₃ rest' (by omega)
                              (by omega) hg hc2 hc3, hlossy]
                          · rw [utf8Bytes_cons,
                              encodeCp_four _ (by omega) (by omega), henc]
                            simp only [List.cons_append, List.nil_append,
                              List.cons.injEq]
                            refine ⟨by omega, by omega, by omega, by omega,
                              trivial⟩
                      · rw [if_neg hcc] at h
                        exact Option.noConfusion h
              · rw [if_neg h5] at h
                exact Option.noConfusion h

/-- The buffering transcode is the identity exactly on payloads the
strict UTF-8 decoder accepts. -/
theorem jsUtf8Transcode_of_valid (bs : List Nat) (cs : List Char)
    (h : utf8Decode bs = some cs) : jsUtf8Transcode bs = bs := by
  obtain ⟨hl, he⟩ :=
    utf8_roundtrip_go bs.length bs cs (Nat.le_refl _) h
  unfold jsUtf8Transcode utf8DecodeLossy
  rw [hl, he]

/-- C8 counterexample: a JSON `POST /match` whose body is the single
byte `0xFF` (not valid UTF-8) is forwarded as the three replacement
bytes `EF BF BD`, not byte-identically — `toString("utf8")` plus the
re-encode is lossy, refuting the universal byte-identity. -/
theorem C8_counterexample :
    (handler envOK reqBadUtf8 (.user "u1") (.ok 200 [] [])).upstream.map
        (fun u => u.body) ≠
      some (ForwardBody.buffered reqBadUtf8.bodyChunks.flatten) ∧
    (handler envOK reqBadUtf8 (.user "u1") (.ok 200 [] [])).upstream.map
        (fun u => u.body) =
      some (ForwardBody.buffered [0xEF, 0xBF, 0xBD]) := by decide

/-- C8 as amended: a non-probe `POST` whose `Content-Type` contains
`application/json` has its whole chunked body read and buffered through
the string transcode before the upstream call, with the forwarded
`Content-Type` forced to `application/json`; the forwarded body is
byte-identical to the caller's payload whenever that payload is valid
UTF-8 (an invalid sequence is replaced with U+FFFD by
`Buffer.toString("utf8")`). -/
theorem C8_json_body_buffered (env : Env) (req : Request) (g : GetUserResult)
    (uo : UpstreamOutcome) (uid : Option String) (cs : List Char)
    (hA : jsTruthyStr env.API_BASE = true)
    (hm : req.method = "POST")
    (hp : isProbeReq req = false)
    (hstep : authStep env req g = Except.ok uid)
    (hct : jsIncludes ((getH req.headers "content-type").getD "")
      "application/json" = true)
    (hvalid : utf8Decode req.bodyChunks.flatten = some cs) :
    (handler env req g uo).bodyRead = true ∧
    (handler env req g uo).upstream.map (fun u => u.body) =
      some (ForwardBody.buffered req.bodyChunks.flatten) ∧
    (handler env req g uo).upstream.map
      (fun u => getH u.headers "content-type") =
      some (some "application/json") := by
  have hid := jsUtf8Transcode_of_valid req.bodyChunks.flatten cs hvalid
  have hm' : (req.method == "OPTIONS") = false := by simp [hm]
  have hb : (!((["GET", "HEAD", "OPTIONS"] : List String).contains req.method)
      && !(isProbeReq req)) = true := by
    rw [hm, hp]; decide
  unfold handler
  simp only [hm', Bool.false_eq_true, if_false, hA, Bool.not_true, hstep,
    hb, hct, if_true, hid]
  cases uo <;> exact ⟨rfl, rfl, by simp [getH_setH_self]⟩

/-- Witness for the amended C8 at a concrete JSON `POST /match` whose
two chunks are the ASCII bytes of `{` and `}`. -/
theorem C8_json_body_buffered_witness :
    (handler envOK reqAuthPost (.user "u1") (.ok 200 [] [])).bodyRead = true ∧
    (handler envOK reqAuthPost (.user "u1") (.ok 200 [] [])).upstream.map
      (fun u => u.body) =
      some (ForwardBody.buffered reqAuthPost.bodyChunks.flatten) ∧
    (handler envOK reqAuthPost (.user "u1") (.ok 200 [] [])).upstream.map
      (fun u => getH u.headers "content-type") =
      some (some "application/json") :=
  C8_json_body_buffered envOK reqAuthPost (.user "u1") (.ok 200 [] [])
    (some "u1") [Char.ofNat 123, Char.ofNat 125]
    (by decide) (by decide) (by decide) rfl (by decide) (by decide)

/-- Any string extended on the left with `/` starts with `/`. -/
theorem jsStartsWith_slash_append (s : String) :
    jsStartsWith ("/" ++ s) "/" = true := by
  unfold jsStartsWith
  rw [String.data_append]
  simp [List.isPrefixOf]

/-- The final normalisation step of the fallback path always yields a
`/`-prefixed string. -/
theorem slash_of_fallback_shape (w : String) :
    jsStartsWith (if w == "" || w == "/" then "/"
      else if jsStartsWith w "/" then w else "/" ++ w) "/" = true := by
  split
  · decide
  · split
    · rename_i h
      exact h
    · exact jsStartsWith_slash_append _

/-- The query-path normalisation step always yields a `/`-prefixed
string. -/
theorem slash_of_decode_shape (d : String) :
    jsStartsWith (if jsStartsWith d "/" then d else "/" ++ d) "/" = true := by
  split
  · rename_i h
    exact h
  · exact jsStartsWith_slash_append _

/-- The `/api/proxy` prefix-stripping fallback always yields a
`/`-prefixed string. -/
theorem resolveFallback_slash (url : String) :
    jsStartsWith (resolveUpstreamPath.resolveFallback url) "/" = true := by
  unfold resolveUpstreamPath.resolveFallback
  exact slash_of_fallback_shape _

/-- C9: for every request the resolved upstream path starts with `/`;
when a non-empty `path` query value is present it is percent-decoded,
with a malformed escape falling back to the raw undecoded value instead
of failing; and `path=%2Fmatch` resolves to `/match`. -/
theorem C9_path_resolution (req : Request) :
    jsStartsWith (resolveUpstreamPath req) "/" = true ∧
    (∀ p, req.queryPath = some p → p ≠ "" → decodeURIComponent p = none →
      resolveUpstreamPath req =
        (if jsStartsWith p "/" then p else "/" ++ p)) ∧
    (req.queryPath = some "%2Fmatch" → resolveUpstreamPath req = "/match") := by
  refine ⟨?_, ?_, ?_⟩
  · unfold resolveUpstreamPath
    cases hq : req.queryPath with
    | none => exact resolveFallback_slash req.url
    | some p =>
      dsimp only
      by_cases hl : p.length > 0
      · rw [if_pos hl]
        exact slash_of_decode_shape _
      · rw [if_neg hl]
        exact resolveFallback_slash req.url
  · intro p hq hne hdec
    have hl : p.length > 0 := by
      cases p with
      | mk data =>
        cases data with
        | nil => exact absurd rfl hne
        | cons c cs => simp [String.length]
    unfold resolveUpstreamPath
    rw [hq]
    dsimp only
    rw [if_pos hl, hdec]
    rfl
  · intro hq
    unfold resolveUpstreamPath
    rw [hq]
    rfl

/-- Witness for C9: `path=%2Fmatch` resolves to `/match` and starts
with `/`. -/
theorem C9_path_resolution_witness :
    jsStartsWith (resolveUpstreamPath reqPathEnc) "/" = true ∧
    resolveUpstreamPath reqPathEnc = "/match" :=
  ⟨(C9_path_resolution reqPathEnc).1, (C9_path_resolution reqPathEnc).2.2 rfl⟩

/-- C10: in the diagnostic revision, with the upstream origin configured,
any request whose `debug` query value is `"1"` is answered locally with
HTTP 200 and a JSON body exposing the resolved upstream path, the full
target URL and whether an `Authorization` header is present — and the
upstream is never contacted; no authentication of any kind exists in
that revision. -/
theorem C10_debug_bypass (env : Env) (req : Request) (uo : UpstreamOutcome)
    (hA : jsTruthyStr env.API_BASE = true)
    (hd : req.queryDebug = some "1") :
    (V1.handler env req uo).response.status = 200 ∧
    (V1.handler env req uo).upstream = none ∧
    respJsonField (V1.handler env req uo).response.body "resolved_upstreamPath"
      = some (.s (V1.resolveUpstreamPath req)) ∧
    respJsonField (V1.handler env req uo).response.body "target_url"
      = some (.s (stripTrailingSlash (env.API_BASE.getD "") ++
          (if jsStartsWith (V1.resolveUpstreamPath req) "/"
           then V1.resolveUpstreamPath req
           else "/" ++ V1.resolveUpstreamPath req))) ∧
    respJsonField (V1.handler env req uo).response.body "auth_present"
      = some (.b (jsTruthyStr (getH req.headers "authorization"))) := by
  unfold V1.handler
  simp only [hA, Bool.not_true, Bool.false_eq_true, if_false, hd]
  exact ⟨rfl, rfl, rfl, rfl, rfl⟩

/-- Witness for C10 at a concrete `debug=1` request carrying a token. -/
theorem C10_debug_bypass_witness :
    (V1.handler envOK reqDebug (.fail "never")).response.status = 200 ∧
    (V1.handler envOK reqDebug (.fail "never")).upstream = none ∧
    respJsonField (V1.handler envOK reqDebug (.fail "never")).response.body
      "resolved_upstreamPath" = some (.s (V1.resolveUpstreamPath reqDebug)) ∧
    respJsonField (V1.handler envOK reqDebug (.fail "never")).response.body
      "target_url" = some (.s (stripTrailingSlash (envOK.API_BASE.getD "") ++
        (if jsStartsWith (V1.resolveUpstreamPath reqDebug) "/"
         then V1.resolveUpstreamPath reqDebug
         else "/" ++ V1.resolveUpstreamPath reqDebug))) ∧
    respJsonField (V1.handler envOK reqDebug (.fail "never")).response.body
      "auth_present"
      = some (.b (jsTruthyStr (getH reqDebug.headers "authorization"))) :=
  C10_debug_bypass envOK reqDebug (.fail "never") (by decide) rfl

end FrontendMatcher
